import Mathlib

/-!
Shallow embedding of the cluster-routing core of the `neo4rs` driver
(`src/lib/src/routing/…`): topology model, round-robin load balancing,
TTL-cached connection registry, routed connection manager, and the Route
request/response codec. Definitions are translated from the Rust source;
asynchronous effects (pool creation, connection acquisition, the route
network exchange, clock reads, the `try_lock` outcome) are passed in as
explicit parameters, and the driver's loops are given an explicit fuel so
that every function is total: a fuel-indexed loop that returns `none` for
every fuel value models a loop that never exits.
-/

/-- `Server` from `routing/mod.rs`: addresses plus role string
(`"READ"`, `"WRITE"`, `"ROUTE"`). Structural equality/hash. -/
structure Server where
  addresses : List String
  role : String
deriving DecidableEq, Repr

/-- `RoutingTable` from `routing/mod.rs`. `db` is the optional database
name (`Database` is a refcounted string; modelled as `String`). -/
structure RoutingTable where
  ttl : Nat
  db : Option String
  servers : List Server
deriving DecidableEq, Repr

/-- Per-role rotation state of `RoundRobinStrategy`
(`round_robin_strategy.rs`): three independent `AtomicUsize` counters,
modelled as `Nat` with explicit state passing (sequential semantics). -/
structure RoundRobinStrategy where
  reader_index : Nat
  writer_index : Nat
  router_index : Nat
deriving DecidableEq, Repr

namespace RoundRobinStrategy

/-- `RoundRobinStrategy::new`: each counter starts at the count of
servers of its role in the seeding routing table. -/
def new (cluster_routing_table : RoutingTable) : RoundRobinStrategy :=
  { reader_index := (cluster_routing_table.servers.filter (fun s => s.role == "READ")).length
    writer_index := (cluster_routing_table.servers.filter (fun s => s.role == "WRITE")).length
    router_index := (cluster_routing_table.servers.filter (fun s => s.role == "ROUTE")).length }

/-- `RoundRobinStrategy::select` (sequential semantics of the atomics):
empty list yields `none` and leaves the counter alone; otherwise a
counter at `0` is first reset to the length (the `compare_exchange`),
the counter is decremented capturing its pre-decrement value `i`
(the `fetch_sub`), and `servers[i-1]` is returned when in bounds;
out of bounds, the counter is stored back to the length and the last
element is returned. Returns the selected server and the new counter. -/
def select (servers : List Server) (index : Nat) : Option Server × Nat :=
  if servers.isEmpty then (none, index)
  else
    let i := if index == 0 then servers.length else index
    match servers.get? (i - 1) with
    | some s => (some s, i - 1)
    | none => (servers.getLast?, servers.length)

/-- `select_reader`: filter the given servers to role `"READ"`, then
`select` with the reader counter. -/
def select_reader (st : RoundRobinStrategy) (servers : List Server) :
    Option Server × RoundRobinStrategy :=
  let r := select (servers.filter (fun s => s.role == "READ")) st.reader_index
  (r.1, { st with reader_index := r.2 })

/-- `select_writer`: filter to role `"WRITE"`, then `select` with the
writer counter. -/
def select_writer (st : RoundRobinStrategy) (servers : List Server) :
    Option Server × RoundRobinStrategy :=
  let r := select (servers.filter (fun s => s.role == "WRITE")) st.writer_index
  (r.1, { st with writer_index := r.2 })

/-- `select_router`: filter to role `"ROUTE"`, then `select` with the
router counter. -/
def select_router (st : RoundRobinStrategy) (servers : List Server) :
    Option Server × RoundRobinStrategy :=
  let r := select (servers.filter (fun s => s.role == "ROUTE")) st.router_index
  (r.1, { st with router_index := r.2 })

end RoundRobinStrategy

/-- Counter value after `n` sequential calls to
`RoundRobinStrategy.select` on a fixed candidate list. -/
def iterateSelect (servers : List Server) : Nat → Nat → Nat
  | 0, c => c
  | n + 1, c => iterateSelect servers n (RoundRobinStrategy.select servers c).2

/-- Result of the `(n+1)`-th sequential call to
`RoundRobinStrategy.select`, starting from counter `c`. -/
def selectResultAt (servers : List Server) (c n : Nat) : Option Server :=
  (RoundRobinStrategy.select servers (iterateSelect servers n c)).1

/-- Strategy state after `n` sequential `select_reader` calls on a fixed
server list. -/
def iterateReader (servers : List Server) : Nat → RoundRobinStrategy → RoundRobinStrategy
  | 0, st => st
  | n + 1, st => iterateReader servers n (st.select_reader servers).2

/-- Result of the `(n+1)`-th sequential `select_reader` call. -/
def readerCallResult (servers : List Server) (st : RoundRobinStrategy) (n : Nat) :
    Option Server :=
  ((iterateReader servers n st).select_reader servers).1

/-- Strategy state after `n` sequential `select_writer` calls. -/
def iterateWriter (servers : List Server) : Nat → RoundRobinStrategy → RoundRobinStrategy
  | 0, st => st
  | n + 1, st => iterateWriter servers n (st.select_writer servers).2

/-- Result of the `(n+1)`-th sequential `select_writer` call. -/
def writerCallResult (servers : List Server) (st : RoundRobinStrategy) (n : Nat) :
    Option Server :=
  ((iterateWriter servers n st).select_writer servers).1

/-- Strategy state after `n` sequential `select_router` calls. -/
def iterateRouter (servers : List Server) : Nat → RoundRobinStrategy → RoundRobinStrategy
  | 0, st => st
  | n + 1, st => iterateRouter servers n (st.select_router servers).2

/-- Result of the `(n+1)`-th sequential `select_router` call. -/
def routerCallResult (servers : List Server) (st : RoundRobinStrategy) (n : Nat) :
    Option Server :=
  ((iterateRouter servers n st).select_router servers).1

/-! ### Helper lemmas about `RoundRobinStrategy.select` -/

theorem select_eq_of_bounds (ss : List Server) (c : Nat) (h1 : 1 ≤ c) (h2 : c ≤ ss.length) :
    RoundRobinStrategy.select ss c = (ss.get? (c - 1), c - 1) := by
  have hne : ss.isEmpty = false := by
    rw [List.isEmpty_eq_false]
    intro h
    subst h
    simp at h2
    omega
  have hc0 : (c == 0) = false := by
    simp only [beq_eq_false_iff_ne, ne_eq]
    omega
  have hlt : c - 1 < ss.length := by omega
  have hget : ss[c - 1]? = some ss[c - 1] := List.getElem?_eq_getElem hlt
  simp [RoundRobinStrategy.select, hne, hc0, hget]

theorem select_at_zero (ss : List Server) (h : ss ≠ []) :
    RoundRobinStrategy.select ss 0 =
      (ss.get? (ss.length - 1), ss.length - 1) := by
  have hne : ss.isEmpty = false := List.isEmpty_eq_false.mpr h
  have hpos : 0 < ss.length := List.length_pos.mpr h
  have hlt : ss.length - 1 < ss.length := by omega
  have hget : ss[ss.length - 1]? = some ss[ss.length - 1] :=
    List.getElem?_eq_getElem hlt
  simp [RoundRobinStrategy.select, hne, hget]

theorem select_fst_eq_none_iff (ss : List Server) (c : Nat) :
    (RoundRobinStrategy.select ss c).1 = none ↔ ss = [] := by
  constructor
  · intro h
    by_contra hne
    have hempty : ss.isEmpty = false := List.isEmpty_eq_false.mpr hne
    unfold RoundRobinStrategy.select at h
    rw [hempty] at h
    simp only [Bool.false_eq_true, if_false] at h
    set i := if (c == 0) = true then ss.length else c with hi
    rcases hg : ss.get? (i - 1) with _ | s
    · rw [hg] at h
      simp only at h
      have : ss.getLast? = none := h
      rw [List.getLast?_eq_getElem? ss] at this
      have hpos : 0 < ss.length := List.length_pos.mpr hne
      have hlt : ss.length - 1 < ss.length := by omega
      rw [List.getElem?_eq_getElem hlt] at this
      exact Option.noConfusion this
    · rw [hg] at h
      simp only at h
      exact Option.noConfusion h
  · intro h
    subst h
    rfl

theorem select_fst_mem (ss : List Server) (c : Nat) (s : Server)
    (h : (RoundRobinStrategy.select ss c).1 = some s) : s ∈ ss := by
  rcases hss : ss.isEmpty with _ | _
  · unfold RoundRobinStrategy.select at h
    rw [hss] at h
    simp only [Bool.false_eq_true, if_false] at h
    set i := if (c == 0) = true then ss.length else c with hi
    rcases hg : ss.get? (i - 1) with _ | t
    · rw [hg] at h
      simp only at h
      have hlast : ss.getLast? = some s := h
      have hne : ss ≠ [] := List.isEmpty_eq_false.mp hss
      rw [List.getLast?_eq_getLast ss hne] at hlast
      have := Option.some.inj hlast
      subst this
      exact List.getLast_mem hne
    · rw [hg] at h
      simp only at h
      have := Option.some.inj h
      subst this
      rw [List.get?_eq_getElem?] at hg
      exact List.getElem?_mem hg
  · unfold RoundRobinStrategy.select at h
    rw [hss] at h
    simp at h

theorem iterateSelect_eq_sub (ss : List Server) :
    ∀ (k c : Nat), k ≤ c → c ≤ ss.length → iterateSelect ss k c = c - k := by
  intro k
  induction k with
  | zero => intro c _ _; rfl
  | succ n ih =>
    intro c hk hc
    have h1 : 1 ≤ c := by omega
    have hsel : RoundRobinStrategy.select ss c = (ss.get? (c - 1), c - 1) :=
      select_eq_of_bounds ss c h1 hc
    show iterateSelect ss n (RoundRobinStrategy.select ss c).2 = c - (n + 1)
    rw [hsel]
    show iterateSelect ss n (c - 1) = c - (n + 1)
    rw [ih (c - 1) (by omega) (by omega)]
    omega

theorem selectResultAt_lt (ss : List Server) (k : Nat) (hk : k < ss.length) :
    selectResultAt ss ss.length k = ss.get? (ss.length - 1 - k) := by
  unfold selectResultAt
  rw [iterateSelect_eq_sub ss k ss.length (by omega) le_rfl]
  have h1 : 1 ≤ ss.length - k := by omega
  rw [select_eq_of_bounds ss (ss.length - k) h1 (by omega)]
  show ss.get? (ss.length - k - 1) = ss.get? (ss.length - 1 - k)
  congr 1
  omega

theorem selectResultAt_at_length (ss : List Server) (h : ss ≠ []) :
    selectResultAt ss ss.length ss.length = ss.get? (ss.length - 1) := by
  unfold selectResultAt
  rw [iterateSelect_eq_sub ss ss.length ss.length le_rfl le_rfl]
  rw [Nat.sub_self]
  rw [select_at_zero ss h]

theorem roleCycle (ss : List Server) (hpos : 0 < ss.length) :
    (∀ k, k < ss.length → selectResultAt ss ss.length k = ss.get? (ss.length - 1 - k)) ∧
    selectResultAt ss ss.length ss.length = ss.get? (ss.length - 1) := by
  refine ⟨fun k hk => selectResultAt_lt ss k hk, selectResultAt_at_length ss ?_⟩
  intro h
  subst h
  simp at hpos

theorem iterateReader_index (rs : List Server) :
    ∀ (n : Nat) (st : RoundRobinStrategy),
    (iterateReader rs n st).reader_index
      = iterateSelect (rs.filter (fun s => s.role == "READ")) n st.reader_index := by
  intro n
  induction n with
  | zero => intro st; rfl
  | succ m ih =>
    intro st
    show (iterateReader rs m (st.select_reader rs).2).reader_index = _
    rw [ih]
    rfl

theorem iterateWriter_index (rs : List Server) :
    ∀ (n : Nat) (st : RoundRobinStrategy),
    (iterateWriter rs n st).writer_index
      = iterateSelect (rs.filter (fun s => s.role == "WRITE")) n st.writer_index := by
  intro n
  induction n with
  | zero => intro st; rfl
  | succ m ih =>
    intro st
    show (iterateWriter rs m (st.select_writer rs).2).writer_index = _
    rw [ih]
    rfl

theorem iterateRouter_index (rs : List Server) :
    ∀ (n : Nat) (st : RoundRobinStrategy),
    (iterateRouter rs n st).router_index
      = iterateSelect (rs.filter (fun s => s.role == "ROUTE")) n st.router_index := by
  intro n
  induction n with
  | zero => intro st; rfl
  | succ m ih =>
    intro st
    show (iterateRouter rs m (st.select_router rs).2).router_index = _
    rw [ih]
    rfl

theorem readerCallResult_eq (rs : List Server) (st : RoundRobinStrategy) (n : Nat) :
    readerCallResult rs st n
      = selectResultAt (rs.filter (fun s => s.role == "READ")) st.reader_index n := by
  show (RoundRobinStrategy.select (rs.filter (fun s => s.role == "READ"))
      (iterateReader rs n st).reader_index).1 = _
  rw [iterateReader_index]
  rfl

theorem writerCallResult_eq (rs : List Server) (st : RoundRobinStrategy) (n : Nat) :
    writerCallResult rs st n
      = selectResultAt (rs.filter (fun s => s.role == "WRITE")) st.writer_index n := by
  show (RoundRobinStrategy.select (rs.filter (fun s => s.role == "WRITE"))
      (iterateWriter rs n st).writer_index).1 = _
  rw [iterateWriter_index]
  rfl

theorem routerCallResult_eq (rs : List Server) (st : RoundRobinStrategy) (n : Nat) :
    routerCallResult rs st n
      = selectResultAt (rs.filter (fun s => s.role == "ROUTE")) st.router_index n := by
  show (RoundRobinStrategy.select (rs.filter (fun s => s.role == "ROUTE"))
      (iterateRouter rs n st).router_index).1 = _
  rw [iterateRouter_index]
  rfl

/-! ### Claim theorems about the round-robin strategy -/

/-- C1: for a `RoundRobinStrategy` built from a routing table whose
servers are exactly the `N` servers of a given role, with every
selection call passed that same server list, the first `N` sequential
calls to the matching selection method return all `N` servers exactly
once each, in order from the last element toward the first (call `k`,
`0`-based, returns element `N-1-k`), and the `(N+1)`-th call returns the
last element again. -/
theorem roundRobin_cycle_order (ttl : Nat) (db : Option String) (rs : List Server)
    (hpos : 0 < rs.length) :
    ((∀ s ∈ rs, s.role = "READ") →
      (∀ k, k < rs.length →
        readerCallResult rs (RoundRobinStrategy.new ⟨ttl, db, rs⟩) k
          = rs.get? (rs.length - 1 - k)) ∧
      readerCallResult rs (RoundRobinStrategy.new ⟨ttl, db, rs⟩) rs.length
        = rs.get? (rs.length - 1)) ∧
    ((∀ s ∈ rs, s.role = "WRITE") →
      (∀ k, k < rs.length →
        writerCallResult rs (RoundRobinStrategy.new ⟨ttl, db, rs⟩) k
          = rs.get? (rs.length - 1 - k)) ∧
      writerCallResult rs (RoundRobinStrategy.new ⟨ttl, db, rs⟩) rs.length
        = rs.get? (rs.length - 1)) ∧
    ((∀ s ∈ rs, s.role = "ROUTE") →
      (∀ k, k < rs.length →
        routerCallResult rs (RoundRobinStrategy.new ⟨ttl, db, rs⟩) k
          = rs.get? (rs.length - 1 - k)) ∧
      routerCallResult rs (RoundRobinStrategy.new ⟨ttl, db, rs⟩) rs.length
        = rs.get? (rs.length - 1)) := by
  obtain ⟨hlt, hwrap⟩ := roleCycle rs hpos
  refine ⟨fun hall => ?_, fun hall => ?_, fun hall => ?_⟩
  · have hfil : rs.filter (fun s => s.role == "READ") = rs :=
      List.filter_eq_self.mpr (fun a ha => beq_iff_eq.mpr (hall a ha))
    have hidx : (RoundRobinStrategy.new ⟨ttl, db, rs⟩).reader_index = rs.length := by
      simp only [RoundRobinStrategy.new, hfil]
    have hcall : ∀ k, readerCallResult rs (RoundRobinStrategy.new ⟨ttl, db, rs⟩) k
        = selectResultAt rs rs.length k := by
      intro k
      rw [readerCallResult_eq, hfil, hidx]
    exact ⟨fun k hk => by rw [hcall k]; exact hlt k hk, by rw [hcall]; exact hwrap⟩
  · have hfil : rs.filter (fun s => s.role == "WRITE") = rs :=
      List.filter_eq_self.mpr (fun a ha => beq_iff_eq.mpr (hall a ha))
    have hidx : (RoundRobinStrategy.new ⟨ttl, db, rs⟩).writer_index = rs.length := by
      simp only [RoundRobinStrategy.new, hfil]
    have hcall : ∀ k, writerCallResult rs (RoundRobinStrategy.new ⟨ttl, db, rs⟩) k
        = selectResultAt rs rs.length k := by
      intro k
      rw [writerCallResult_eq, hfil, hidx]
    exact ⟨fun k hk => by rw [hcall k]; exact hlt k hk, by rw [hcall]; exact hwrap⟩
  · have hfil : rs.filter (fun s => s.role == "ROUTE") = rs :=
      List.filter_eq_self.mpr (fun a ha => beq_iff_eq.mpr (hall a ha))
    have hidx : (RoundRobinStrategy.new ⟨ttl, db, rs⟩).router_index = rs.length := by
      simp only [RoundRobinStrategy.new, hfil]
    have hcall : ∀ k, routerCallResult rs (RoundRobinStrategy.new ⟨ttl, db, rs⟩) k
        = selectResultAt rs rs.length k := by
      intro k
      rw [routerCallResult_eq, hfil, hidx]
    exact ⟨fun k hk => by rw [hcall k]; exact hlt k hk, by rw [hcall]; exact hwrap⟩

/-- Two concrete `READ` servers, as in the strategy's unit test. -/
def r0spec : Server := ⟨["localhost:7687"], "READ"⟩

def r1spec : Server := ⟨["localhost:7688"], "READ"⟩

/-- Witness for C1 at readers `[r0, r1]`: the three successive calls
return `r1, r0, r1`. -/
theorem roundRobin_cycle_order_witness :
    readerCallResult [r0spec, r1spec]
      (RoundRobinStrategy.new ⟨0, none, [r0spec, r1spec]⟩) 0 = some r1spec ∧
    readerCallResult [r0spec, r1spec]
      (RoundRobinStrategy.new ⟨0, none, [r0spec, r1spec]⟩) 1 = some r0spec ∧
    readerCallResult [r0spec, r1spec]
      (RoundRobinStrategy.new ⟨0, none, [r0spec, r1spec]⟩) 2 = some r1spec := by
  have h := (roundRobin_cycle_order 0 none [r0spec, r1spec] (by decide)).1 (by decide)
  refine ⟨?_, ?_, ?_⟩
  · rw [h.1 0 (by decide)]; rfl
  · rw [h.1 1 (by decide)]; rfl
  · have h2 := h.2
    simp only [List.length_cons, List.length_nil] at h2
    rw [h2]
    rfl

/-- C5: a selection call never panics or indexes out of bounds: for every
server list and every rotation-counter state, each selection method
returns `none` exactly when the list holds no server of the requested
role, and any returned server is an element of the list with that role. -/
theorem roundRobin_select_safety (servers : List Server) (st : RoundRobinStrategy) :
    (((st.select_reader servers).1 = none ↔ ∀ s ∈ servers, s.role ≠ "READ") ∧
      ∀ s, (st.select_reader servers).1 = some s → s ∈ servers ∧ s.role = "READ") ∧
    (((st.select_writer servers).1 = none ↔ ∀ s ∈ servers, s.role ≠ "WRITE") ∧
      ∀ s, (st.select_writer servers).1 = some s → s ∈ servers ∧ s.role = "WRITE") ∧
    (((st.select_router servers).1 = none ↔ ∀ s ∈ servers, s.role ≠ "ROUTE") ∧
      ∀ s, (st.select_router servers).1 = some s → s ∈ servers ∧ s.role = "ROUTE") := by
  have key : ∀ (role : String) (idx : Nat),
      ((RoundRobinStrategy.select (servers.filter (fun s => s.role == role)) idx).1 = none
        ↔ ∀ s ∈ servers, s.role ≠ role) ∧
      ∀ s, (RoundRobinStrategy.select (servers.filter (fun s => s.role == role)) idx).1
          = some s → s ∈ servers ∧ s.role = role := by
    intro role idx
    constructor
    · rw [select_fst_eq_none_iff, List.filter_eq_nil_iff]
      constructor
      · intro h s hs
        have := h s hs
        simpa [beq_iff_eq] using this
      · intro h s hs
        simp only [beq_iff_eq]
        exact h s hs
    · intro s hsome
      have hmem := select_fst_mem _ idx s hsome
      rw [List.mem_filter] at hmem
      exact ⟨hmem.1, beq_iff_eq.mp hmem.2⟩
  exact ⟨key "READ" st.reader_index, key "WRITE" st.writer_index,
    key "ROUTE" st.router_index⟩

/-- Witness for C5: on `[r0]` (a single `READ` server) any strategy state
returns that server for the reader role, and the writer role returns
`none`; the theorem's implications are discharged at this input. -/
theorem roundRobin_select_safety_witness :
    (r0spec ∈ [r0spec] ∧ r0spec.role = "READ") ∧
    ((RoundRobinStrategy.mk 1 1 1).select_writer [r0spec]).1 = none :=
  ⟨(roundRobin_select_safety [r0spec] ⟨1, 1, 1⟩).1.2 r0spec (by decide),
    (roundRobin_select_safety [r0spec] ⟨1, 1, 1⟩).2.1.1.mpr (by decide)⟩

/-- C6: when the pre-decrement counter value makes `i - 1` out of bounds
for a non-empty candidate list (the counter exceeds the shrunken list's
length), the call resets the counter to the candidate count and returns
the last element. -/
theorem roundRobin_shrink_fallback (ss : List Server) (c : Nat) (h : ss ≠ [])
    (hoob : ss.length < c) :
    RoundRobinStrategy.select ss c = (some (ss.getLast h), ss.length) := by
  have hne : ss.isEmpty = false := List.isEmpty_eq_false.mpr h
  have hc0 : (c == 0) = false := by
    simp only [beq_eq_false_iff_ne, ne_eq]
    omega
  have hnone : ss[c - 1]? = none := List.getElem?_eq_none (by omega)
  have hlast : ss.getLast? = some (ss.getLast h) := List.getLast?_eq_getLast ss h
  simp [RoundRobinStrategy.select, hne, hc0, hnone, hlast]

/-- Witness for C6: a two-element list with a stale counter of 5 yields
the last element and a counter reset to 2. -/
theorem roundRobin_shrink_fallback_witness :
    RoundRobinStrategy.select [r0spec, r1spec] 5
      = (some ([r0spec, r1spec].getLast (by decide)), 2) :=
  roundRobin_shrink_fallback [r0spec, r1spec] 5 (by decide) (by decide)

/-! ### Connection registry (`connection_registry.rs`) -/

/-- Opaque connection pool handle (`ConnectionPool` is an external
collaborator; only its identity matters to the registry). -/
structure ConnectionPool where
  id : Nat
deriving DecidableEq, Repr

/-- Error taxonomy used by the routing core (`Error` lives outside
`src/`; only the two routing-specific variants appear in the routing
source, all other variants are opaque pass-through payloads). -/
inductive Err where
  | serverUnavailableError (msg : String)
  | routingTableRefreshFailed (msg : String)
  | poolCreation (code : Nat)
  | connectionFailure (code : Nat)
  | other (code : Nat)
deriving DecidableEq, Repr

/-- `ConnectionRegistry`: `creation_time` (seconds, behind a try-lock
mutex in the source), `ttl` (copied from the seeding table) and the
server → pool map (`DashMap`, modelled as an association list with
unique keys maintained by the operations). The immutable `config` is
dropped; it only feeds `create_pool`, which is a parameter here. -/
structure ConnectionRegistry where
  creation_time : Nat
  ttl : Nat
  connections : List (Server × ConnectionPool)
deriving DecidableEq, Repr

namespace ConnectionRegistry

/-- `DashMap::contains_key`. -/
def containsKey (conns : List (Server × ConnectionPool)) (s : Server) : Bool :=
  conns.any (fun kv => kv.1 == s)

/-- `ConnectionRegistry::get_pool`. -/
def get_pool (reg : ConnectionRegistry) (s : Server) : Option ConnectionPool :=
  (reg.connections.find? (fun kv => kv.1 == s)).map (fun kv => kv.2)

/-- `ConnectionRegistry::mark_unavailable`: unconditionally remove the
server's entry. -/
def mark_unavailable (reg : ConnectionRegistry) (s : Server) : ConnectionRegistry :=
  { reg with connections := reg.connections.filter (fun kv => !(kv.1 == s)) }

/-- `ConnectionRegistry::servers`: snapshot of the registered keys. -/
def servers (reg : ConnectionRegistry) : List Server :=
  reg.connections.map (fun kv => kv.1)

/-- The `for server in servers` loop of `update_if_expired`: insert a
freshly created pool for every server not already registered. A failing
`create_pool` propagates its error at once (`?`), leaving the map as
mutated so far. -/
def insertMissingPools (createPool : Server → Except Err ConnectionPool) :
    List (Server × ConnectionPool) → List Server →
    Except Err Unit × List (Server × ConnectionPool)
  | conns, [] => (.ok (), conns)
  | conns, s :: rest =>
    if containsKey conns s then insertMissingPools createPool conns rest
    else
      match createPool s with
      | .error e => (.error e, conns)
      | .ok p => insertMissingPools createPool (conns ++ [(s, p)]) rest

/-- `ConnectionRegistry::update_if_expired`. `now` is the wall-clock
reading, `lockAcquired` the outcome of `creation_time.try_lock()`, and
`refresh` the outcome that `f().await` would produce. If the lock is
held elsewhere, or `now - creation_time` does not exceed `ttl`, nothing
happens. Otherwise the refresh result is consulted: an error propagates
untouched; on success pools are created for newly-seen servers, entries
whose server is no longer in the new table are retained out, and the
timestamp becomes `now`. Returns the call's result together with the
registry state after the call. -/
def update_if_expired (reg : ConnectionRegistry) (now : Nat) (lockAcquired : Bool)
    (refresh : Except Err RoutingTable)
    (createPool : Server → Except Err ConnectionPool) :
    Except Err Unit × ConnectionRegistry :=
  if lockAcquired then
    if now - reg.creation_time > reg.ttl then
      match refresh with
      | .error e => (.error e, reg)
      | .ok routing_table =>
        match insertMissingPools createPool reg.connections routing_table.servers with
        | (.error e, conns) => (.error e, { reg with connections := conns })
        | (.ok _, conns) =>
          (.ok (),
            { reg with
              connections := conns.filter (fun kv => routing_table.servers.contains kv.1)
              creation_time := now })
    else (.ok (), reg)
  else (.ok (), reg)

end ConnectionRegistry

/-! ### Helper lemmas about the registry -/

theorem insertMissingPools_ok (createPool : Server → Except Err ConnectionPool)
    (hcp : ∀ s, ∃ p, createPool s = .ok p) :
    ∀ (ss : List Server) (conns : List (Server × ConnectionPool)),
    (ConnectionRegistry.insertMissingPools createPool conns ss).1 = .ok () ∧
    ∀ x, ConnectionRegistry.containsKey
        (ConnectionRegistry.insertMissingPools createPool conns ss).2 x
      = (ConnectionRegistry.containsKey conns x || ss.contains x) := by
  intro ss
  induction ss with
  | nil =>
    intro conns
    exact ⟨rfl, fun x => by simp [ConnectionRegistry.insertMissingPools]⟩
  | cons s rest ih =>
    intro conns
    by_cases hmem : ConnectionRegistry.containsKey conns s
    · have hstep : ConnectionRegistry.insertMissingPools createPool conns (s :: rest)
          = ConnectionRegistry.insertMissingPools createPool conns rest := by
        simp [ConnectionRegistry.insertMissingPools, hmem]
      refine ⟨by rw [hstep]; exact (ih conns).1, fun x => ?_⟩
      rw [hstep, (ih conns).2 x]
      by_cases hxs : x = s
      · subst hxs
        simp [hmem]
      · simp [List.contains_cons, hxs, Ne.symm hxs]
    · obtain ⟨p, hp⟩ := hcp s
      have hmem' : ConnectionRegistry.containsKey conns s = false := by
        simpa using hmem
      have hstep : ConnectionRegistry.insertMissingPools createPool conns (s :: rest)
          = ConnectionRegistry.insertMissingPools createPool (conns ++ [(s, p)]) rest := by
        simp [ConnectionRegistry.insertMissingPools, hmem', hp]
      refine ⟨by rw [hstep]; exact (ih _).1, fun x => ?_⟩
      rw [hstep, (ih _).2 x]
      have happ : ConnectionRegistry.containsKey (conns ++ [(s, p)]) x
          = (ConnectionRegistry.containsKey conns x || (s == x)) := by
        simp [ConnectionRegistry.containsKey, List.any_append]
      rw [happ]
      by_cases hxs : x = s
      · subst hxs
        simp
      · have h1 : (s == x) = false := by
          simp only [beq_eq_false_iff_ne, ne_eq]
          exact fun hc => hxs hc.symm
        simp [List.contains_cons, hxs, h1]

theorem containsKey_filter_retain (ss : List Server) :
    ∀ (conns : List (Server × ConnectionPool)) (x : Server),
    ConnectionRegistry.containsKey (conns.filter (fun kv => ss.contains kv.1)) x
      = (ConnectionRegistry.containsKey conns x && ss.contains x) := by
  intro conns
  induction conns with
  | nil => intro x; rfl
  | cons kv rest ih =>
    intro x
    by_cases hkeep : ss.contains kv.1
    · rw [List.filter_cons_of_pos (p := fun (kv : Server × ConnectionPool) => ss.contains kv.1) hkeep]
      by_cases hx : kv.1 = x
      · subst hx
        simp only [ConnectionRegistry.containsKey, List.any_cons, beq_self_eq_true,
          Bool.true_or, hkeep, Bool.and_true]
      · have h1 : (kv.1 == x) = false := by
          simp only [beq_eq_false_iff_ne, ne_eq]
          exact hx
        simp only [ConnectionRegistry.containsKey, List.any_cons, h1,
          Bool.false_or]
        exact ih x
    · have hkeep' : ss.contains kv.1 = false := by simpa using hkeep
      rw [List.filter_cons_of_neg (p := fun (kv : Server × ConnectionPool) => ss.contains kv.1) hkeep]
      by_cases hx : kv.1 = x
      · subst hx
        rw [ih kv.1, hkeep']
        simp
      · have h1 : (kv.1 == x) = false := by
          simp only [beq_eq_false_iff_ne, ne_eq]
          exact hx
        rw [ih x]
        simp [ConnectionRegistry.containsKey, List.any_cons, h1]

/-- A concrete `WRITE` server used by witnesses. -/
def wSpec : Server := ⟨["host3:7687"], "WRITE"⟩

/-- C2: `update_if_expired` with elapsed time at most `ttl` returns
success without consulting the refresh outcome and leaves the registry
(map and timestamp) unchanged, whatever the lock outcome; with elapsed
time exceeding `ttl`, the lock acquired, a successful refresh, and pool
creation succeeding, it returns success, makes the key set of the
connections map exactly the server set of the returned routing table,
and sets the stored timestamp to `now`. (`hmono` matches the `u64`
subtraction `now - creation_time` of the source, which presupposes a
non-decreasing clock.) -/
theorem update_if_expired_ttl_behavior (reg : ConnectionRegistry) (now : Nat)
    (_hmono : reg.creation_time ≤ now) :
    (∀ (lockAcquired : Bool) (refresh : Except Err RoutingTable)
        (createPool : Server → Except Err ConnectionPool),
      now - reg.creation_time ≤ reg.ttl →
      reg.update_if_expired now lockAcquired refresh createPool = (.ok (), reg)) ∧
    (∀ (rt : RoutingTable) (createPool : Server → Except Err ConnectionPool),
      reg.ttl < now - reg.creation_time →
      (∀ s, ∃ p, createPool s = .ok p) →
      (reg.update_if_expired now true (.ok rt) createPool).1 = .ok () ∧
      (∀ s, ConnectionRegistry.containsKey
          (reg.update_if_expired now true (.ok rt) createPool).2.connections s = true
        ↔ s ∈ rt.servers) ∧
      (reg.update_if_expired now true (.ok rt) createPool).2.creation_time = now) := by
  constructor
  · intro lockAcquired refresh createPool hle
    have hcond : ¬ (now - reg.creation_time > reg.ttl) := by omega
    cases lockAcquired with
    | false => rfl
    | true => simp [ConnectionRegistry.update_if_expired, hcond]
  · intro rt createPool hgt hcp
    obtain ⟨hok, hkeys⟩ :=
      insertMissingPools_ok createPool hcp rt.servers reg.connections
    rcases hins : ConnectionRegistry.insertMissingPools createPool reg.connections rt.servers
      with ⟨res, conns⟩
    have hok' : res = .ok () := by
      have h := hok
      rw [hins] at h
      exact h
    subst hok'
    have hkeys' : ∀ x, ConnectionRegistry.containsKey conns x
        = (ConnectionRegistry.containsKey reg.connections x || rt.servers.contains x) := by
      intro x
      have h := hkeys x
      rw [hins] at h
      exact h
    have hupd : reg.update_if_expired now true (.ok rt) createPool
        = (.ok (), { reg with
            connections := conns.filter (fun kv => rt.servers.contains kv.1)
            creation_time := now }) := by
      simp [ConnectionRegistry.update_if_expired, hgt, hins]
    rw [hupd]
    refine ⟨rfl, fun s => ?_, rfl⟩
    show ConnectionRegistry.containsKey
        (conns.filter (fun kv => rt.servers.contains kv.1)) s = true ↔ s ∈ rt.servers
    rw [containsKey_filter_retain rt.servers conns s, hkeys' s]
    by_cases hs : s ∈ rt.servers <;> simp [hs]

/-- Witness for C2: a fresh registry is untouched; an expired one ends
with exactly the new table's server as its key set and timestamp 10. -/
theorem update_if_expired_ttl_behavior_witness :
    ConnectionRegistry.update_if_expired ⟨0, 5, [(r0spec, ⟨0⟩)]⟩ 3 true
      (.ok ⟨5, none, [wSpec]⟩) (fun _ => .ok ⟨1⟩) = (.ok (), ⟨0, 5, [(r0spec, ⟨0⟩)]⟩) ∧
    ConnectionRegistry.containsKey
      (ConnectionRegistry.update_if_expired ⟨0, 5, [(r0spec, ⟨0⟩)]⟩ 10 true
        (.ok ⟨5, none, [wSpec]⟩) (fun _ => .ok ⟨1⟩)).2.connections wSpec = true ∧
    (ConnectionRegistry.update_if_expired ⟨0, 5, [(r0spec, ⟨0⟩)]⟩ 10 true
      (.ok ⟨5, none, [wSpec]⟩) (fun _ => .ok ⟨1⟩)).2.creation_time = 10 := by
  have ha := update_if_expired_ttl_behavior ⟨0, 5, [(r0spec, ⟨0⟩)]⟩ 3 (by decide)
  have hb := update_if_expired_ttl_behavior ⟨0, 5, [(r0spec, ⟨0⟩)]⟩ 10 (by decide)
  refine ⟨ha.1 true _ _ (by norm_num), ?_, ?_⟩
  · exact ((hb.2 ⟨5, none, [wSpec]⟩ (fun _ => .ok ⟨1⟩) (by norm_num)
      (fun s => ⟨⟨1⟩, rfl⟩)).2.1 wSpec).mpr (by decide)
  · exact (hb.2 ⟨5, none, [wSpec]⟩ (fun _ => .ok ⟨1⟩) (by norm_num)
      (fun s => ⟨⟨1⟩, rfl⟩)).2.2

/-- C3: when the registry is expired and the lock acquired, a failing
refresh propagates its error to the caller and leaves the registry --
its connections map (keys and pools) and its stored timestamp --
exactly as before the call. -/
theorem update_if_expired_refresh_error_propagates (reg : ConnectionRegistry) (now : Nat)
    (e : Err) (createPool : Server → Except Err ConnectionPool)
    (_hmono : reg.creation_time ≤ now)
    (hexp : reg.ttl < now - reg.creation_time) :
    reg.update_if_expired now true (.error e) createPool = (.error e, reg) := by
  simp [ConnectionRegistry.update_if_expired, hexp]

/-- Witness for C3 on a one-entry registry with an opaque refresh
error. -/
theorem update_if_expired_refresh_error_propagates_witness :
    ConnectionRegistry.update_if_expired ⟨0, 5, [(r0spec, ⟨0⟩)]⟩ 10 true
      (.error (.other 7)) (fun _ => .ok ⟨1⟩)
      = (.error (.other 7), ⟨0, 5, [(r0spec, ⟨0⟩)]⟩) :=
  update_if_expired_refresh_error_propagates ⟨0, 5, [(r0spec, ⟨0⟩)]⟩ 10 (.other 7)
    (fun _ => .ok ⟨1⟩) (by decide) (by decide)

/-! ### Routed connection manager (`routed_connection_manager.rs`) -/

/-- `Operation` (declared outside `src/`; the routing code only
distinguishes `Write` from everything else). -/
inductive Operation where
  | read
  | write
deriving DecidableEq, Repr

/-- Modelled from the spec: the display name interpolated into the
`"No server available for {op} operation"` message (the `Display` impl
for `Operation` lives outside `src/`; the spec says the error names the
operation, e.g. the write operation). -/
def Operation.display : Operation → String
  | .read => "read"
  | .write => "write"

/-- The server role that `get` targets for an operation, read off the
`match op` in the source: `Write` goes through `select_writer`
(role `"WRITE"`), anything else through `select_reader` (`"READ"`). -/
def Operation.targetRole : Operation → String
  | .write => "WRITE"
  | .read => "READ"

/-- The candidate-rotation loop of `RoutedConnectionManager::get`,
fuel-indexed. `available` is the snapshot `available_servers`, computed
once before the loop in the source and never re-read; `acquire` is the
outcome of `pool.get().await`. One iteration: ask the strategy for a
candidate of the operation's role from the fixed snapshot; `none` exits
with the "No server available" error; with a candidate, a found pool is
asked for a connection — success returns it, failure marks the server
unavailable and continues — and a missing pool only logs and continues.
Returns `none` when the fuel runs out with the loop still running (so a
result of `none` for every fuel models a loop that never exits), plus
the final strategy and registry states and the servers on which a
connection acquisition was attempted (the loop's network activity). -/
abbrev GetLoopState :=
  Option (Except Err Nat) × RoundRobinStrategy × ConnectionRegistry × List Server

/-- Record one attempted connection acquisition in a loop outcome. -/
def consAttempt (server : Server) (r : GetLoopState) : GetLoopState :=
  (r.1, r.2.1, r.2.2.1, server :: r.2.2.2)

/-- One iteration of the loop body of `get`, with `recur` standing for
the rest of the loop. -/
def getLoopStep (op : Operation) (available : List Server)
    (acquire : Server → ConnectionPool → Except Err Nat)
    (recur : RoundRobinStrategy → ConnectionRegistry → GetLoopState)
    (st : RoundRobinStrategy) (reg : ConnectionRegistry) : GetLoopState :=
  match (match op with
         | .write => st.select_writer available
         | _ => st.select_reader available) with
  | (none, st') =>
    (some (.error (.routingTableRefreshFailed
      ("No server available for " ++ op.display ++ " operation"))), st', reg, [])
  | (some server, st') =>
    match reg.get_pool server with
    | some pool =>
      match acquire server pool with
      | .ok connection => (some (.ok connection), st', reg, [server])
      | .error _ => consAttempt server (recur st' (reg.mark_unavailable server))
    | none => recur st' reg

def getLoop (op : Operation) (available : List Server)
    (acquire : Server → ConnectionPool → Except Err Nat) :
    Nat → RoundRobinStrategy → ConnectionRegistry → GetLoopState
  | 0, st, reg => (none, st, reg, [])
  | fuel + 1, st, reg =>
    getLoopStep op available acquire (getLoop op available acquire fuel) st reg

/-- `RoutedConnectionManager::get`: refresh the registry if expired,
propagating a refresh failure; then default the operation to `Write`,
snapshot the servers once, and run the candidate-rotation loop.
Returns the result (`none` = the loop is still running after `fuel`
iterations), the final registry, and the acquisition attempts. -/
def RoutedConnectionManager.get (operation : Option Operation)
    (reg : ConnectionRegistry) (st : RoundRobinStrategy) (now : Nat)
    (lockAcquired : Bool) (refresh : Except Err RoutingTable)
    (createPool : Server → Except Err ConnectionPool)
    (acquire : Server → ConnectionPool → Except Err Nat) (fuel : Nat) :
    Option (Except Err Nat) × ConnectionRegistry × List Server :=
  match ConnectionRegistry.update_if_expired reg now lockAcquired refresh createPool with
  | (.error e, reg1) => (some (.error e), reg1, [])
  | (.ok _, reg1) =>
    let op := operation.getD .write
    let available := reg1.servers
    let r := getLoop op available acquire fuel st reg1
    (r.1, r.2.2.1, r.2.2.2)

theorem select_singleton_fst (x : Server) (c : Nat) :
    (RoundRobinStrategy.select [x] c).1 = some x := by
  rcases h : (RoundRobinStrategy.select [x] c).1 with _ | s
  · exact absurd ((select_fst_eq_none_iff [x] c).mp h) (by simp)
  · have hmem := select_fst_mem [x] c s h
    simp only [List.mem_singleton] at hmem
    rw [hmem]

/-- An acquisition environment in which every `pool.get()` fails. -/
def acqAlwaysFail : Server → ConnectionPool → Except Err Nat :=
  fun _ _ => .error (.connectionFailure 0)

/-- C4 (refuted): the candidate-rotation loop of `get` need not
terminate. With the snapshot `[wSpec]` (one writer) and every
acquisition failing, the loop never produces a result — for every fuel
bound, every strategy state, and every registry state (including the
reachable one that holds `wSpec`'s pool: its first acquisition failure
evicts it, after which the stale snapshot keeps yielding it and its
pool lookup keeps missing). The claimed exhaustion error is never
reached. -/
theorem get_loop_never_terminates :
    ∀ (fuel : Nat) (st : RoundRobinStrategy) (reg : ConnectionRegistry),
    (getLoop .write [wSpec] acqAlwaysFail fuel st reg).1 = none := by
  intro fuel
  induction fuel with
  | zero => intro st reg; rfl
  | succ n ih =>
    intro st reg
    have hfil : [wSpec].filter (fun s => s.role == "WRITE") = [wSpec] := rfl
    have hsel : (st.select_writer [wSpec]).1 = some wSpec := by
      show (RoundRobinStrategy.select ([wSpec].filter (fun s => s.role == "WRITE"))
        st.writer_index).1 = some wSpec
      rw [hfil]
      exact select_singleton_fst wSpec st.writer_index
    rcases hs : st.select_writer [wSpec] with ⟨o, st'⟩
    have ho : o = some wSpec := by
      rw [hs] at hsel
      exact hsel
    subst ho
    rcases hp : reg.get_pool wSpec with _ | pool
    · have hstep : getLoop .write [wSpec] acqAlwaysFail (n + 1) st reg
          = getLoop .write [wSpec] acqAlwaysFail n st' reg := by
        simp [getLoop, getLoopStep, hs, hp]
      rw [hstep]
      exact ih st' reg
    · have hstep : (getLoop .write [wSpec] acqAlwaysFail (n + 1) st reg).1
          = (getLoop .write [wSpec] acqAlwaysFail n st'
              (reg.mark_unavailable wSpec)).1 := by
        simp [getLoop, getLoopStep, hs, hp, acqAlwaysFail, consAttempt]
      rw [hstep]
      exact ih st' _

theorem update_if_expired_noop (reg : ConnectionRegistry) (now : Nat)
    (lockAcquired : Bool) (refresh : Except Err RoutingTable)
    (createPool : Server → Except Err ConnectionPool)
    (hle : now - reg.creation_time ≤ reg.ttl) :
    reg.update_if_expired now lockAcquired refresh createPool = (.ok (), reg) := by
  have hcond : ¬ (now - reg.creation_time > reg.ttl) := by omega
  cases lockAcquired with
  | false => rfl
  | true => simp [ConnectionRegistry.update_if_expired, hcond]

theorem getLoop_error_implies_no_candidate :
    ∀ (fuel : Nat) (op : Operation) (available : List Server)
      (acquire : Server → ConnectionPool → Except Err Nat)
      (st : RoundRobinStrategy) (reg : ConnectionRegistry) (m : String),
    (getLoop op available acquire fuel st reg).1
        = some (.error (.routingTableRefreshFailed m)) →
    available.filter (fun s => s.role == op.targetRole) = [] := by
  intro fuel
  induction fuel with
  | zero =>
    intro op available acquire st reg m h
    exact absurd h (by simp [getLoop])
  | succ n ih =>
    intro op available acquire st reg m h
    cases op with
    | write =>
      rcases hs : st.select_writer available with ⟨o, st'⟩
      cases o with
      | none =>
        have hnone : (st.select_writer available).1 = none := by
          rw [hs]
        exact (select_fst_eq_none_iff _ _).mp hnone
      | some server =>
        simp only [getLoop, getLoopStep, hs] at h
        rcases hp : reg.get_pool server with _ | pool
        · rw [hp] at h
          simp only at h
          exact ih .write available acquire st' reg m h
        · rw [hp] at h
          simp only at h
          rcases ha : acquire server pool with e | conn
          · rw [ha] at h
            simp only [consAttempt] at h
            exact ih .write available acquire st' (reg.mark_unavailable server) m h
          · rw [ha] at h
            simp at h
    | read =>
      rcases hs : st.select_reader available with ⟨o, st'⟩
      cases o with
      | none =>
        have hnone : (st.select_reader available).1 = none := by
          rw [hs]
        exact (select_fst_eq_none_iff _ _).mp hnone
      | some server =>
        simp only [getLoop, getLoopStep, hs] at h
        rcases hp : reg.get_pool server with _ | pool
        · rw [hp] at h
          simp only at h
          exact ih .read available acquire st' reg m h
        · rw [hp] at h
          simp only at h
          rcases ha : acquire server pool with e | conn
          · rw [ha] at h
            simp only [consAttempt] at h
            exact ih .read available acquire st' (reg.mark_unavailable server) m h
          · rw [ha] at h
            simp at h

/-- C7: `get` for a `Write` operation with a fresh routing table and no
writer-role server in the registry snapshot fails immediately with the
`RoutingTableRefreshFailed` error naming the write operation, with the
registry untouched and no connection acquisition attempted (and, being
independent of `refresh` and `acquire`, no network call); and in
general the loop of `get` surfaces a `RoutingTableRefreshFailed` error
only when the snapshot holds no server of the operation's target role,
i.e. only when the strategy yields no further candidate. -/
theorem get_no_writer_error :
    (∀ (reg : ConnectionRegistry) (st : RoundRobinStrategy) (now : Nat)
        (lockAcquired : Bool) (refresh : Except Err RoutingTable)
        (createPool : Server → Except Err ConnectionPool)
        (acquire : Server → ConnectionPool → Except Err Nat) (fuel : Nat),
      reg.creation_time ≤ now →
      now - reg.creation_time ≤ reg.ttl →
      (∀ s ∈ reg.servers, s.role ≠ "WRITE") →
      RoutedConnectionManager.get (some .write) reg st now lockAcquired refresh
          createPool acquire (fuel + 1)
        = (some (.error (.routingTableRefreshFailed
            "No server available for write operation")), reg, [])) ∧
    (∀ (fuel : Nat) (op : Operation) (available : List Server)
        (acquire : Server → ConnectionPool → Except Err Nat)
        (st : RoundRobinStrategy) (reg : ConnectionRegistry) (m : String),
      (getLoop op available acquire fuel st reg).1
          = some (.error (.routingTableRefreshFailed m)) →
      available.filter (fun s => s.role == op.targetRole) = []) := by
  constructor
  · intro reg st now lockAcquired refresh createPool acquire fuel hmono hle hwriters
    have hupd := update_if_expired_noop reg now lockAcquired refresh createPool hle
    have hfil : reg.servers.filter (fun s => s.role == "WRITE") = [] :=
      List.filter_eq_nil_iff.mpr (fun a ha => by
        simp only [beq_iff_eq]
        exact hwriters a ha)
    have hsel : st.select_writer reg.servers = (none, st) := by
      unfold RoundRobinStrategy.select_writer
      rw [hfil]
      rfl
    simp [RoutedConnectionManager.get, hupd, getLoop, getLoopStep, hsel,
      Operation.display]
  · exact getLoop_error_implies_no_candidate

/-- Witness for C7: a registry holding only a `READ` server, with a
fresh table, rejects a write-operation `get` without touching anything. -/
theorem get_no_writer_error_witness :
    RoutedConnectionManager.get (some .write) ⟨0, 5, [(r0spec, ⟨0⟩)]⟩ ⟨1, 0, 0⟩ 3 true
        (.ok ⟨5, none, []⟩) (fun _ => .ok ⟨1⟩) (fun _ _ => .ok 0) 1
      = (some (.error (.routingTableRefreshFailed
          "No server available for write operation")), ⟨0, 5, [(r0spec, ⟨0⟩)]⟩, []) :=
  get_no_writer_error.1 ⟨0, 5, [(r0spec, ⟨0⟩)]⟩ ⟨1, 0, 0⟩ 3 true
    (.ok ⟨5, none, []⟩) (fun _ => .ok ⟨1⟩) (fun _ _ => .ok 0) 0
    (by decide) (by decide) (by decide)

/-- C10: `get` with no operation specified behaves exactly as a `Write`
operation (`operation.unwrap_or(Operation::Write)`), taking the writer
selection path on every input. -/
theorem get_none_defaults_to_write (reg : ConnectionRegistry)
    (st : RoundRobinStrategy) (now : Nat) (lockAcquired : Bool)
    (refresh : Except Err RoutingTable)
    (createPool : Server → Except Err ConnectionPool)
    (acquire : Server → ConnectionPool → Except Err Nat) (fuel : Nat) :
    RoutedConnectionManager.get none reg st now lockAcquired refresh
        createPool acquire fuel
      = RoutedConnectionManager.get (some .write) reg st now lockAcquired refresh
        createPool acquire fuel := rfl

/-! ### `refresh_routing_table` (`routed_connection_manager.rs`) -/

abbrev RefreshLoopState :=
  Option (Except Err RoutingTable) × RoundRobinStrategy × ConnectionRegistry

/-- One iteration of the router-rotation loop of
`refresh_routing_table`, with `recur` standing for the rest of the
loop. Unlike `get`, the server snapshot is re-read from the registry on
every iteration (`self.registry.servers()` inside the loop condition).
`acquire` is `pool.get().await`; `routeEx` is the outcome of the
`connection.route(route).await` exchange on the acquired connection. -/
def refreshLoopStep (acquire : Server → ConnectionPool → Except Err Nat)
    (routeEx : Server → Nat → Except Err RoutingTable)
    (recur : RoundRobinStrategy → ConnectionRegistry → RefreshLoopState)
    (st : RoundRobinStrategy) (reg : ConnectionRegistry) : RefreshLoopState :=
  match st.select_router reg.servers with
  | (none, st') =>
    (some (.error (.serverUnavailableError "No router available")), st', reg)
  | (some router, st') =>
    match reg.get_pool router with
    | some pool =>
      match acquire router pool with
      | .ok connection =>
        match routeEx router connection with
        | .ok rt => (some (.ok rt), st', reg)
        | .error _ => recur st' (reg.mark_unavailable router)
      | .error _ => recur st' (reg.mark_unavailable router)
    | none => recur st' reg

/-- The fuel-indexed router-rotation loop of `refresh_routing_table`.
`none` means the loop is still running after `fuel` iterations. -/
def refreshLoop (acquire : Server → ConnectionPool → Except Err Nat)
    (routeEx : Server → Nat → Except Err RoutingTable) :
    Nat → RoundRobinStrategy → ConnectionRegistry → RefreshLoopState
  | 0, st, reg => (none, st, reg)
  | fuel + 1, st, reg =>
    refreshLoopStep acquire routeEx (refreshLoop acquire routeEx fuel) st reg

theorem refreshLoop_error_characterization (acquire : Server → ConnectionPool → Except Err Nat)
    (routeEx : Server → Nat → Except Err RoutingTable) :
    ∀ (fuel : Nat) (st : RoundRobinStrategy) (reg : ConnectionRegistry) (e : Err),
    (refreshLoop acquire routeEx fuel st reg).1 = some (.error e) →
    e = .serverUnavailableError "No router available" ∧
    ∀ s ∈ (refreshLoop acquire routeEx fuel st reg).2.2.servers, s.role ≠ "ROUTE" := by
  intro fuel
  induction fuel with
  | zero =>
    intro st reg e h
    exact absurd h (by simp [refreshLoop])
  | succ n ih =>
    intro st reg e h
    rcases hs : st.select_router reg.servers with ⟨o, st'⟩
    cases o with
    | none =>
      have hnone : (st.select_router reg.servers).1 = none := by rw [hs]
      have hfil := (select_fst_eq_none_iff _ _).mp hnone
      have hrole : ∀ s ∈ reg.servers, s.role ≠ "ROUTE" := by
        intro s hmem
        have := List.filter_eq_nil_iff.mp hfil s hmem
        simpa [beq_iff_eq] using this
      simp only [refreshLoop, refreshLoopStep, hs] at h ⊢
      refine ⟨?_, hrole⟩
      have := Option.some.inj h
      exact (Except.error.inj this).symm
    | some router =>
      simp only [refreshLoop, refreshLoopStep, hs] at h ⊢
      rcases hp : reg.get_pool router with _ | pool
      · rw [hp] at h
        simp only at h ⊢
        exact ih st' reg e h
      · rw [hp] at h
        simp only at h ⊢
        rcases ha : acquire router pool with ae | conn
        · rw [ha] at h
          simp only at h ⊢
          exact ih st' (reg.mark_unavailable router) e h
        · rw [ha] at h
          simp only at h ⊢
          rcases hr : routeEx router conn with re | rt
          · rw [hr] at h
            simp only at h ⊢
            exact ih st' (reg.mark_unavailable router) e h
          · rw [hr] at h
            simp at h

/-- A concrete `ROUTE` server used by witnesses. -/
def routeSpec : Server := ⟨["host0:7687"], "ROUTE"⟩

/-- C8: the router-rotation loop of `refresh_routing_table` returns the
`ServerUnavailableError "No router available"` exactly when no
router-role candidate remains in the registry snapshot (part 1: with no
router registered the error is immediate and the registry untouched;
part 2: any error the loop returns is that error, and at that point the
registry snapshot holds no router); a per-router connection-acquisition
failure (part 3) or route-exchange failure (part 4) marks that router
unavailable — removing it from the registry — and continues with the
next candidate; a successful route exchange returns the parsed routing
table (part 5). -/
theorem refresh_routing_table_router_rotation :
    (∀ (acquire : Server → ConnectionPool → Except Err Nat)
        (routeEx : Server → Nat → Except Err RoutingTable)
        (fuel : Nat) (st : RoundRobinStrategy) (reg : ConnectionRegistry),
      (∀ s ∈ reg.servers, s.role ≠ "ROUTE") →
      refreshLoop acquire routeEx (fuel + 1) st reg
        = (some (.error (.serverUnavailableError "No router available")), st, reg)) ∧
    (∀ (acquire : Server → ConnectionPool → Except Err Nat)
        (routeEx : Server → Nat → Except Err RoutingTable)
        (fuel : Nat) (st : RoundRobinStrategy) (reg : ConnectionRegistry) (e : Err),
      (refreshLoop acquire routeEx fuel st reg).1 = some (.error e) →
      e = .serverUnavailableError "No router available" ∧
      ∀ s ∈ (refreshLoop acquire routeEx fuel st reg).2.2.servers, s.role ≠ "ROUTE") ∧
    (∀ (acquire : Server → ConnectionPool → Except Err Nat)
        (routeEx : Server → Nat → Except Err RoutingTable)
        (fuel : Nat) (st st' : RoundRobinStrategy) (reg : ConnectionRegistry)
        (router : Server) (pool : ConnectionPool) (e : Err),
      st.select_router reg.servers = (some router, st') →
      reg.get_pool router = some pool →
      acquire router pool = .error e →
      refreshLoop acquire routeEx (fuel + 1) st reg
        = refreshLoop acquire routeEx fuel st' (reg.mark_unavailable router)) ∧
    (∀ (acquire : Server → ConnectionPool → Except Err Nat)
        (routeEx : Server → Nat → Except Err RoutingTable)
        (fuel : Nat) (st st' : RoundRobinStrategy) (reg : ConnectionRegistry)
        (router : Server) (pool : ConnectionPool) (conn : Nat) (e : Err),
      st.select_router reg.servers = (some router, st') →
      reg.get_pool router = some pool →
      acquire router pool = .ok conn →
      routeEx router conn = .error e →
      refreshLoop acquire routeEx (fuel + 1) st reg
        = refreshLoop acquire routeEx fuel st' (reg.mark_unavailable router)) ∧
    (∀ (acquire : Server → ConnectionPool → Except Err Nat)
        (routeEx : Server → Nat → Except Err RoutingTable)
        (fuel : Nat) (st st' : RoundRobinStrategy) (reg : ConnectionRegistry)
        (router : Server) (pool : ConnectionPool) (conn : Nat) (rt : RoutingTable),
      st.select_router reg.servers = (some router, st') →
      reg.get_pool router = some pool →
      acquire router pool = .ok conn →
      routeEx router conn = .ok rt →
      refreshLoop acquire routeEx (fuel + 1) st reg
        = (some (.ok rt), st', reg)) := by
  refine ⟨?_, ?_, ?_, ?_, ?_⟩
  · intro acquire routeEx fuel st reg hrouters
    have hfil : reg.servers.filter (fun s => s.role == "ROUTE") = [] :=
      List.filter_eq_nil_iff.mpr (fun a ha => by
        simp only [beq_iff_eq]
        exact hrouters a ha)
    have hsel : st.select_router reg.servers = (none, st) := by
      unfold RoundRobinStrategy.select_router
      rw [hfil]
      rfl
    simp [refreshLoop, refreshLoopStep, hsel]
  · intro acquire routeEx
    exact refreshLoop_error_characterization acquire routeEx
  · intro acquire routeEx fuel st st' reg router pool e hs hp ha
    simp [refreshLoop, refreshLoopStep, hs, hp, ha]
  · intro acquire routeEx fuel st st' reg router pool conn e hs hp ha hr
    simp [refreshLoop, refreshLoopStep, hs, hp, ha, hr]
  · intro acquire routeEx fuel st st' reg router pool conn rt hs hp ha hr
    simp [refreshLoop, refreshLoopStep, hs, hp, ha, hr]

/-- Witness for C8: a router-less registry fails at once with the
"No router available" error; with one router whose exchange succeeds
the loop returns the parsed table. -/
theorem refresh_routing_table_router_rotation_witness :
    refreshLoop (fun _ _ => .ok 0) (fun _ _ => .ok ⟨5, none, []⟩) 1 ⟨0, 0, 1⟩
        ⟨0, 5, [(r0spec, ⟨0⟩)]⟩
      = (some (.error (.serverUnavailableError "No router available")), ⟨0, 0, 1⟩,
          ⟨0, 5, [(r0spec, ⟨0⟩)]⟩) ∧
    refreshLoop (fun _ _ => .ok 0) (fun _ _ => .ok ⟨5, none, [routeSpec]⟩) 1 ⟨0, 0, 1⟩
        ⟨0, 5, [(routeSpec, ⟨0⟩)]⟩
      = (some (.ok ⟨5, none, [routeSpec]⟩), ⟨0, 0, 0⟩, ⟨0, 5, [(routeSpec, ⟨0⟩)]⟩) := by
  constructor
  · exact refresh_routing_table_router_rotation.1 (fun _ _ => .ok 0)
      (fun _ _ => .ok ⟨5, none, []⟩) 0 ⟨0, 0, 1⟩ ⟨0, 5, [(r0spec, ⟨0⟩)]⟩ (by decide)
  · exact refresh_routing_table_router_rotation.2.2.2.2 (fun _ _ => .ok 0)
      (fun _ _ => .ok ⟨5, none, [routeSpec]⟩) 0 ⟨0, 0, 1⟩ ⟨0, 0, 0⟩
      ⟨0, 5, [(routeSpec, ⟨0⟩)]⟩ routeSpec ⟨0⟩ 0 ⟨5, none, [routeSpec]⟩
      (by decide) rfl rfl rfl

/-! ### Route request/response codec (`routing/mod.rs`, `bolt/request/route.rs`) -/

/-- Packstream value tree exchanged on the wire. -/
inductive PackValue where
  | null
  | str (s : String)
  | int (i : Int)
  | list (xs : List PackValue)
  | map (entries : List (String × PackValue))
  | struct (tag : Nat) (fields : List PackValue)

/-- Byte content of a string (ASCII model of UTF-8; every string in this
core's wire contract is ASCII). -/
def strBytes (s : String) : List Nat := s.data.map Char.toNat

/-- Modelled from the spec: packstream size header — tiny marker for
sizes below 16, one-byte-length marker below 256 (larger sizes do not
occur in this core's wire exchange). -/
def sizeHeader (tinyBase oneByte n : Nat) : List Nat :=
  if n < 16 then [tinyBase + n] else [oneByte, n]

/-- Byte encoding of one string value. -/
def strEncode (s : String) : List Nat :=
  sizeHeader 0x80 0xD0 (strBytes s).length ++ strBytes s

/-- Big-endian bytes of a 64-bit value. -/
def be64 (n : Nat) : List Nat :=
  [n / 2 ^ 56 % 256, n / 2 ^ 48 % 256, n / 2 ^ 40 % 256, n / 2 ^ 32 % 256,
   n / 2 ^ 24 % 256, n / 2 ^ 16 % 256, n / 2 ^ 8 % 256, n % 256]

mutual

/-- Modelled from the spec: the packstream byte encoder (the generic
serializer lives in the `packstream` module, outside `src/`): null is
`0xC0`; strings carry a `0x80`-based header; lists a `0x90`-based and
maps an `0xA0`-based header counting entries; a structure is
`0xB0 + field count` followed by its tag byte and the fields in order;
small non-negative integers are a single byte, others an `0xCB`-marked
big-endian 64-bit two's complement. -/
def packBytes : PackValue → List Nat
  | .null => [0xC0]
  | .str s => strEncode s
  | .int i =>
    if 0 ≤ i ∧ i < 128 then [i.toNat]
    else 0xCB :: be64 ((i % (2 ^ 64 : Int)).toNat)
  | .list xs => sizeHeader 0x90 0xD4 xs.length ++ packList xs
  | .map entries => sizeHeader 0xA0 0xD8 entries.length ++ packEntries entries
  | .struct tag fields => (0xB0 + fields.length) :: tag :: packList fields

/-- Concatenated encodings of a sequence of values. -/
def packList : List PackValue → List Nat
  | [] => []
  | v :: rest => packBytes v ++ packList rest

/-- Concatenated encodings of a sequence of map entries (key string,
then value). -/
def packEntries : List (String × PackValue) → List Nat
  | [] => []
  | kv :: rest => strEncode kv.1 ++ packBytes kv.2 ++ packEntries rest

end

/-- `Routing` (declared in the `connection` module outside `src/`; its
two shapes are fixed by the `Serialize for Routing` impl in
`routing/mod.rs`): no routing, or a routing context of string pairs. -/
inductive Routing where
  | no
  | yes (entries : List (String × String))
deriving DecidableEq, Repr

/-- `Route` (the `unstable-bolt-protocol-impl-v2` struct in
`routing/mod.rs`): routing context, bookmarks, optional database. -/
structure Route where
  routing : Routing
  bookmarks : List String
  db : Option String
deriving DecidableEq, Repr

/-- `Serialize for Routing` in `routing/mod.rs`: `No` serializes as
none/null, `Yes` as a map of the stringified pairs. -/
def Routing.toPack : Routing → PackValue
  | .no => .null
  | .yes entries => .map (entries.map (fun kv => (kv.1, PackValue.str kv.2)))

/-- `Serialize for Route` in `routing/mod.rs`: a struct variant with
tag `0x66` and exactly 3 fields in order — routing context, bookmarks,
database — an absent database serializing as the empty string. -/
def Route.toPack (r : Route) : PackValue :=
  .struct 0x66 [r.routing.toPack, .list (r.bookmarks.map PackValue.str),
    .str (r.db.getD "")]

/-- Modelled from the spec: field lookup in a decoded map (serde reads
fields by key; unknown fields are ignored, order is irrelevant). -/
def lookupKey (entries : List (String × PackValue)) (k : String) : Option PackValue :=
  (entries.find? (fun e => e.1 == k)).map (fun e => e.2)

/-- Decode a list of string values; anything else is a parse error. -/
def parseStringList : List PackValue → Option (List String)
  | [] => some []
  | .str s :: rest => (parseStringList rest).map (fun l => s :: l)
  | _ => none

/-- Modelled from the spec: decode one server entry — a map with
`"addresses"` (list of strings) and `"role"` (string). -/
def parseServer : PackValue → Option Server
  | .map es =>
    match lookupKey es "addresses", lookupKey es "role" with
    | some (.list addrs), some (.str role) =>
      (parseStringList addrs).map (fun addresses => ⟨addresses, role⟩)
    | _, _ => none
  | _ => none

/-- Decode the server list. -/
def parseServers : List PackValue → Option (List Server)
  | [] => some []
  | v :: rest =>
    match parseServer v with
    | some s => (parseServers rest).map (fun l => s :: l)
    | none => none

/-- Modelled from the spec: decode a `RoutingTable` (the
`derive(Deserialize)` machinery lives outside `src/`) from the map
under `"rt"`: `"ttl"` a non-negative integer (it is a `u64`), `"db"`
an optional string (missing or null means no database, the server
default), `"servers"` a list of server entries; any structural
mismatch is a parse error (`none`), never a silently substituted
default. -/
def parseRoutingTable : PackValue → Option RoutingTable
  | .map es =>
    match lookupKey es "ttl", lookupKey es "servers" with
    | some (.int ttl), some (.list svs) =>
      if 0 ≤ ttl then
        match parseServers svs with
        | some servers =>
          match lookupKey es "db" with
          | none => some ⟨ttl.toNat, none, servers⟩
          | some (.str db) => some ⟨ttl.toNat, some db, servers⟩
          | some .null => some ⟨ttl.toNat, none, servers⟩
          | some _ => none
        | none => none
      else none
    | _, _ => none
  | _ => none

/-- Modelled from the spec: the route response (`Response` in
`bolt/request/route.rs`) is a single-entry map keyed `"rt"` whose value
decodes to the routing table. -/
def parseResponse : PackValue → Option RoutingTable
  | .map [(k, v)] => if k = "rt" then parseRoutingTable v else none
  | _ => none

/-- The spec's round-trip example request. -/
def exampleRoute : Route :=
  ⟨.yes [("address", "localhost:7687")], ["bookmark"], some "neo4j"⟩

/-- The spec's round-trip example response. -/
def exampleResponse : PackValue :=
  .map [("rt", .map [("ttl", .int 1000), ("db", .str "neo4j"),
    ("servers", .list [.map [("addresses", .list [.str "localhost:7687"]),
      ("role", .str "ROUTE")]])])]

/-- The example response without the optional `"db"` key. -/
def exampleResponseNoDb : PackValue :=
  .map [("rt", .map [("ttl", .int 1000),
    ("servers", .list [.map [("addresses", .list [.str "localhost:7687"]),
      ("role", .str "ROUTE")]])])]

/-- A structurally malformed response: `"ttl"` is a string. -/
def exampleResponseBadTtl : PackValue :=
  .map [("rt", .map [("ttl", .str "1000"), ("servers", .list [])])]

/-- A structurally malformed response: required keys are missing. -/
def exampleResponseMissing : PackValue :=
  .map [("rt", .map [("db", .str "neo4j")])]

/-- C9: the encoded Route request is the binary structure tagged
`(0xB3, 0x66)` with exactly 3 fields in order — routing-context map,
bookmark list, database string, an absent database encoding as the
empty string (octet `0x80`) — bit-exact on the spec's example; and the
route response decodes from the single-entry `"rt"` map to a
`RoutingTable` with the given ttl, db and servers, a missing `"db"`
decoding to no database while structurally malformed responses yield a
parse error rather than silently substituted defaults. -/
theorem route_codec_wire_contract :
    (∀ r : Route, packBytes r.toPack
      = 0xB3 :: 0x66 :: (packBytes r.routing.toPack
          ++ packBytes (.list (r.bookmarks.map PackValue.str))
          ++ packBytes (.str (r.db.getD "")))) ∧
    packBytes exampleRoute.toPack
      = [0xB3, 0x66,
         0xA1, 0x87, 97, 100, 100, 114, 101, 115, 115,
         0x8E, 108, 111, 99, 97, 108, 104, 111, 115, 116, 58, 55, 54, 56, 55,
         0x91, 0x88, 98, 111, 111, 107, 109, 97, 114, 107,
         0x85, 110, 101, 111, 52, 106] ∧
    packBytes (Route.toPack ⟨.yes [], [], none⟩)
      = [0xB3, 0x66, 0xA0, 0x90, 0x80] ∧
    parseResponse exampleResponse
      = some ⟨1000, some "neo4j", [⟨["localhost:7687"], "ROUTE"⟩]⟩ ∧
    parseResponse exampleResponseNoDb
      = some ⟨1000, none, [⟨["localhost:7687"], "ROUTE"⟩]⟩ ∧
    parseResponse exampleResponseBadTtl = none ∧
    parseResponse exampleResponseMissing = none ∧
    parseResponse (.list []) = none := by
  refine ⟨?_, by decide, by decide, by decide, by decide, by decide, by decide, by decide⟩
  intro r
  show packBytes (.struct 0x66 [r.routing.toPack,
      .list (r.bookmarks.map PackValue.str), .str (r.db.getD "")]) = _
  rw [packBytes.eq_def]
  simp [packList, packBytes]
